import Mathlib

/-!
Shallow embedding of the monaco-vscode-server crate (src/platform.rs,
src/download.rs, src/lib.rs).

Filesystem paths are modelled as lists of path components; the ambient world
(filesystem, network-call counter, transferred-byte counter, spawned-process
log) is threaded explicitly through every operation that performs I/O in the
source.  Remote responses and child-process behaviour are supplied by
environment records, so that each Rust function becomes a pure Lean function
from its inputs and the environment to a result and an updated world.
-/

namespace MonacoVscodeServer

/-- Supported platforms for the VSCode server (src/platform.rs, enum Platform). -/
inductive Platform where
  | LinuxX64
  | LinuxArm64
  | LinuxArmhf
  | DarwinX64
  | DarwinArm64
  | Win32X64
deriving DecidableEq, Repr

/-- Gets the VSCode server flavor string for this platform
(src/platform.rs, Platform::server_flavor). -/
def Platform.server_flavor : Platform → String
  | .LinuxX64 => "server-linux-x64"
  | .LinuxArm64 => "server-linux-arm64"
  | .LinuxArmhf => "server-linux-armhf"
  | .DarwinX64 => "server-darwin-x64"
  | .DarwinArm64 => "server-darwin-arm64"
  | .Win32X64 => "server-win32-x64"

/-- Gets the URL suffix for downloading (src/platform.rs, Platform::url_suffix). -/
def Platform.url_suffix : Platform → String
  | .Win32X64 => "archive"
  | _ => "stable"

/-- Checks if this platform uses zip archives (src/platform.rs, Platform::uses_zip). -/
def Platform.uses_zip : Platform → Bool
  | .Win32X64 => true
  | _ => false

/-- Error type of the crate (src/lib.rs, enum ServerError).  The payloads of
the transport-level variants are the carried error messages. -/
inductive ServerError where
  | Io (msg : String)
  | Network (msg : String)
  | ServerNotFound
  | AlreadyRunning
  | NotRunning
  | StartFailed (msg : String)
  | UnsupportedPlatform (msg : String)
  | VersionDetectionFailed (msg : String)
  | ExtractionFailed (msg : String)
  | DownloadFailed (msg : String)
deriving DecidableEq, Repr

/-- Commit information in a GitHub tag response (src/download.rs, struct CommitInfo). -/
structure CommitInfo where
  sha : String
deriving DecidableEq, Repr

/-- One entry of the tag-listing API response (src/download.rs, struct GitHubTag). -/
structure GitHubTag where
  name : String
  commit : CommitInfo
deriving DecidableEq, Repr

/-- Nested vscode section of the manifest (src/download.rs, struct VscodeConfig). -/
structure VscodeConfig where
  commit : String
deriving DecidableEq, Repr

/-- Config section of the manifest (src/download.rs, struct ConfigSection). -/
structure ConfigSection where
  vscode : VscodeConfig
deriving DecidableEq, Repr

/-- The manifest document fetched for a tag (src/download.rs, struct PackageJson). -/
structure PackageJson where
  config : ConfigSection
deriving DecidableEq, Repr

/-- Information about the detected VSCode server (src/lib.rs, struct ServerInfo). -/
structure ServerInfo where
  monaco_api_version : String
  vscode_commit : String
  platform : Platform
  download_url : String
deriving DecidableEq, Repr

/-- Configuration for the server instance (src/lib.rs, struct ServerConfig).
The port is a u16 in the source; no arithmetic is performed on it, so it is
modelled as a natural number. -/
structure ServerConfig where
  port : Nat
  host : String
  args : List String
  server_dir : List String
  disable_telemetry : Bool
  connection_token : Option String
deriving DecidableEq, Repr

deriving instance DecidableEq for Except

/-- A spawned child process (std::process::Child).  The fields record how the
operating system answers each of the three operations the source invokes on a
child handle: kill, wait, and try_wait.  For try_wait, ok none means the child
is still running and ok (some code) means it has exited with that status. -/
structure Child where
  killResult : Except String Unit
  waitResult : Except String Unit
  tryWaitResult : Except String (Option Nat)
deriving DecidableEq, Repr

/-- A top-level entry of a tar archive: its name and whether it is a directory. -/
structure TarEntry where
  name : String
  isDir : Bool
deriving DecidableEq, Repr

/-- Content of the downloaded tar+gzip archive, standing in for the bytes the
source reads back from the archive file on disk.  unpackError is some msg when
Archive::unpack would fail with that message; entries are the top-level
entries the unpack materialises (the only depth the source inspects). -/
structure TarArchive where
  unpackError : Option String
  entries : List TarEntry
deriving DecidableEq, Repr

/-- The ambient world threaded through every effectful operation: the set of
existing directories and files (paths as component lists), a counter of
network requests issued, a counter of response-body bytes streamed to disk,
and a log of spawned processes (executable path paired with argument list). -/
structure World where
  dirs : List (List String)
  files : List (List String)
  netCalls : Nat
  bytesTransferred : Nat
  spawned : List (List String × List String)
deriving DecidableEq, Repr

/-- Responses of the remote endpoints and the content they serve: the
tag-listing API, the raw manifest endpoint, the result of compile-time
platform detection, the HTTP status of the archive download, the length of
the archive body, and the archive content itself. -/
structure NetEnv where
  tagsResp : Except String (List GitHubTag)
  pkgResp : Except String PackageJson
  platformResult : Except String Platform
  statusCode : Nat
  archiveLen : Nat
  archive : TarArchive
deriving Repr

/-- Outcome the operating system gives to a spawn attempt. -/
structure StartEnv where
  spawnResult : Except String Child
deriving Repr

/-- State of the lifecycle manager (src/lib.rs, struct VscodeServerManager).
The process slot is behind a mutex in the source; operations on it are
serialised, so it is modelled as a plain optional child. -/
structure VscodeServerManager where
  config : ServerConfig
  info : Option ServerInfo
  process : Option Child
  server_path : Option (List String)
deriving DecidableEq, Repr

/-- Path exists on disk (Rust Path::exists is true for files and directories). -/
def pathExists (p : List String) (w : World) : Bool :=
  p ∈ w.dirs || p ∈ w.files

/-- Inserts a path into a path list if not already present. -/
def insertPath (p : List String) (l : List (List String)) : List (List String) :=
  if p ∈ l then l else p :: l

/-- Effect of fs::create_dir_all on the world (parents are implicit in the
component-list representation; only exact paths are ever tested). -/
def addDir (p : List String) (w : World) : World :=
  { w with dirs := insertPath p w.dirs }

/-- Effect of fs::remove_file on the world. -/
def removeFile (p : List String) (w : World) : World :=
  { w with files := w.files.erase p }

/-- Effect of fs::remove_dir_all on the world: the path and everything below
it disappears. -/
def removeTree (p : List String) (w : World) : World :=
  { w with dirs := w.dirs.filter (fun q => !(List.isPrefixOf p q)),
           files := w.files.filter (fun q => !(List.isPrefixOf p q)) }

/-- Directories read back by fs::read_dir at path p, keeping only the entries
whose path is a directory: the members of the directory set exactly one
component below p. -/
def childDirs (p : List String) (dirs : List (List String)) : List (List String) :=
  dirs.filter (fun q => q.length == p.length + 1 && List.isPrefixOf p q)

/-- Path::with_extension on the final component (the source only ever appends
the extension tmp to a commit-keyed directory name; commit keys contain no
dot, so with_extension appends). -/
def withExtTmp (p : List String) : List String :=
  p.dropLast ++ [p.getLastD "" ++ ".tmp"]

/-- Effect of Archive::unpack at path p: the top-level entries of the archive
appear under p as directories and files. -/
def unpackInto (p : List String) (entries : List TarEntry) (w : World) : World :=
  { w with dirs := (entries.filter (fun e => e.isDir)).map (fun e => p ++ [e.name]) ++ w.dirs,
           files := (entries.filter (fun e => !e.isDir)).map (fun e => p ++ [e.name]) ++ w.files }

/-- Effect of fs::rename from src to dst on the directory set. -/
def renamePath (src dst : List String) (w : World) : World :=
  { w with dirs := dst :: w.dirs.erase src }

/-- HTTP status success test (reqwest StatusCode::is_success). -/
def statusIsSuccess (c : Nat) : Bool :=
  200 ≤ c && c < 300

/-- Detects the latest compatible VSCode server version
(src/download.rs, detect_version).  Performs one network round trip for the
tag list and, when a tag exists, a second one for the manifest. -/
def detect_version (env : NetEnv) (w : World) : Except ServerError ServerInfo × World :=
  let w := { w with netCalls := w.netCalls + 1 }
  match env.tagsResp with
  | .error e => (.error (.Network e), w)
  | .ok tags =>
    match tags.head? with
    | none => (.error (.VersionDetectionFailed "No tags found in monaco-vscode-api repository"), w)
    | some latest_tag =>
      let w := { w with netCalls := w.netCalls + 1 }
      match env.pkgResp with
      | .error e => (.error (.Network e), w)
      | .ok package_json =>
        match env.platformResult with
        | .error s => (.error (.UnsupportedPlatform s), w)
        | .ok platform =>
          let vscode_commit_sha := package_json.config.vscode.commit
          let download_url :=
            "https://update.code.visualstudio.com/commit:" ++ vscode_commit_sha
              ++ "/" ++ platform.server_flavor ++ "/" ++ platform.url_suffix
          (.ok { monaco_api_version := latest_tag.name,
                 vscode_commit := vscode_commit_sha,
                 platform := platform,
                 download_url := download_url }, w)

/-- Extracts a tar.gz archive (src/download.rs, extract_tar_gz).  The archive
content ar stands in for the file at the archive path the source reads. -/
def extract_tar_gz (ar : TarArchive) (target_dir : List String) (w : World) :
    Except ServerError Unit × World :=
  let temp_dir := withExtTmp target_dir
  let w := addDir temp_dir w
  match ar.unpackError with
  | some e => (.error (.ExtractionFailed e), w)
  | none =>
    let w := unpackInto temp_dir ar.entries w
    let found_dirs := childDirs temp_dir w.dirs
    if found_dirs.length ≠ 1 then
      (.error (.ExtractionFailed
        ("Expected exactly one directory in archive, found " ++ toString found_dirs.length)), w)
    else
      let w := renamePath (found_dirs.getD 0 []) target_dir w
      let w := removeTree temp_dir w
      (.ok (), w)

/-- Extracts a zip archive on a platform without zip support
(src/download.rs, extract_zip, the cfg(not(target_os = "windows")) variant:
the build under verification is the non-Windows one). -/
def extract_zip (w : World) : Except ServerError Unit × World :=
  (.error (.ExtractionFailed "ZIP extraction not supported on this platform"), w)

/-- Extracts the downloaded archive (src/download.rs, extract_archive). -/
def extract_archive (ar : TarArchive) (target_dir : List String) (platform : Platform)
    (w : World) : Except ServerError Unit × World :=
  if platform.uses_zip then
    extract_zip w
  else
    extract_tar_gz ar target_dir w

/-- Downloads and extracts the VSCode server (src/download.rs, download_server).
Mirrors the source step by step: create the target directory, short-circuit if
the commit-keyed directory already exists, otherwise issue the GET, stream the
body into the archive file, extract, and delete the archive. -/
def download_server (env : NetEnv) (info : ServerInfo) (target_dir : List String)
    (w : World) : Except ServerError Unit × World :=
  let w := addDir target_dir w
  let server_dir := target_dir ++ [info.vscode_commit]
  if pathExists server_dir w then
    (.ok (), w)
  else
    let w := { w with netCalls := w.netCalls + 1 }
    if !statusIsSuccess env.statusCode then
      (.error (.DownloadFailed ("Failed to download: " ++ toString env.statusCode)), w)
    else
      let archive_name :=
        if info.platform.uses_zip then
          "vscode-server-" ++ info.vscode_commit ++ ".zip"
        else
          "vscode-server-" ++ info.vscode_commit ++ ".tar.gz"
      let archive_path := target_dir ++ [archive_name]
      let w := { w with files := insertPath archive_path w.files,
                        bytesTransferred := w.bytesTransferred + env.archiveLen }
      let res := extract_archive env.archive server_dir info.platform w
      match res.1 with
      | .error e => (.error e, res.2)
      | .ok _ => (.ok (), removeFile archive_path res.2)

/-- Ensures that the server is available (src/lib.rs,
VscodeServerManager::ensure_server): detect the version, cache the detected
info, then download only when the commit-keyed directory is absent, and
finally record the resolved install path. -/
def VscodeServerManager.ensure_server (env : NetEnv) (m : VscodeServerManager)
    (w : World) : Except ServerError Unit × VscodeServerManager × World :=
  let r := detect_version env w
  match r.1 with
  | .error e => (.error e, m, r.2)
  | .ok info =>
    let w1 := r.2
    let m1 := { m with info := some info }
    let server_path := m.config.server_dir ++ [info.vscode_commit]
    if pathExists server_path w1 then
      (.ok (), { m1 with server_path := some server_path }, w1)
    else
      let d := download_server env info m.config.server_dir w1
      match d.1 with
      | .error e => (.error e, m1, d.2)
      | .ok _ => (.ok (), { m1 with server_path := some server_path }, d.2)

/-- The argument list built by the sequence of cmd.arg calls in
VscodeServerManager::start (src/lib.rs, lines 265 to 283). -/
def start_args (config : ServerConfig) : List String :=
  let args := ["--port", toString config.port, "--host", config.host]
  let args := if config.disable_telemetry then args ++ ["--disable-telemetry"] else args
  let args :=
    match config.connection_token with
    | some token => args ++ ["--connection-token", token]
    | none => args ++ ["--without-connection-token"]
  args ++ config.args

/-- Helper to get the executable path (src/lib.rs,
VscodeServerManager::get_executable_path, non-Windows branch). -/
def get_executable_path (server_path : List String) (w : World) :
    Except ServerError (List String) :=
  let exe := server_path ++ ["bin", "code-server"]
  if pathExists exe w then .ok exe else .error .ServerNotFound

/-- Starts the server process (src/lib.rs, VscodeServerManager::start):
reject when a handle is already held, resolve the install path and the
executable, then spawn the child with the constructed argument list.  A
successful spawn is recorded in the world's spawn log. -/
def VscodeServerManager.start (env : StartEnv) (m : VscodeServerManager) (w : World) :
    Except ServerError Unit × VscodeServerManager × World :=
  if m.process.isSome then
    (.error .AlreadyRunning, m, w)
  else
    match m.server_path with
    | none => (.error .ServerNotFound, m, w)
    | some server_path =>
      match get_executable_path server_path w with
      | .error e => (.error e, m, w)
      | .ok executable =>
        match env.spawnResult with
        | .error e => (.error (.StartFailed e), m, w)
        | .ok child =>
          (.ok (), { m with process := some child },
           { w with spawned := w.spawned ++ [(executable, start_args m.config)] })

/-- Stops the server process (src/lib.rs, VscodeServerManager::stop): the
handle is taken out of the slot first, then the child is killed and waited
on, each step propagating its I/O error. -/
def VscodeServerManager.stop (m : VscodeServerManager) :
    Except ServerError Unit × VscodeServerManager :=
  match m.process with
  | some child =>
    let m1 := { m with process := none }
    match child.killResult with
    | .error e => (.error (.Io e), m1)
    | .ok _ =>
      match child.waitResult with
      | .error e => (.error (.Io e), m1)
      | .ok _ => (.ok (), m1)
  | none => (.error .NotRunning, m)

/-- Checks whether the server is running (src/lib.rs,
VscodeServerManager::is_running): polls the child with try_wait; any outcome
other than ok none clears the stale handle and reports false. -/
def VscodeServerManager.is_running (m : VscodeServerManager) :
    Bool × VscodeServerManager :=
  match m.process with
  | some child =>
    match child.tryWaitResult with
    | .ok none => (true, m)
    | _ => (false, { m with process := none })
  | none => (false, m)

/-! Concrete inputs used by scenario theorems and witnesses. -/

/-- The empty world: nothing on disk, no I/O performed yet. -/
def emptyWorld : World :=
  { dirs := [], files := [], netCalls := 0, bytesTransferred := 0, spawned := [] }

/-- A concrete server configuration mirroring the documented defaults of
ServerConfig (src/lib.rs), with the install directory fixed to a concrete
path. -/
def cfgT : ServerConfig :=
  { port := 8001, host := "127.0.0.1", args := ["--accept-server-license-terms"],
    server_dir := ["cache"], disable_telemetry := true, connection_token := none }

/-- A healthy child: every process operation succeeds and the child is alive. -/
def childAlive : Child :=
  { killResult := .ok (), waitResult := .ok (), tryWaitResult := .ok none }

/-- Network environment of the end-to-end scenario of the spec: one tag
v2.3.0 at commit abc123, a manifest pinning vscode commit deadbeef, a
linux-x64 host, and a well-formed single-directory archive. -/
def envT : NetEnv :=
  { tagsResp := .ok [{ name := "v2.3.0", commit := { sha := "abc123" } }],
    pkgResp := .ok { config := { vscode := { commit := "deadbeef" } } },
    platformResult := .ok .LinuxX64,
    statusCode := 200,
    archiveLen := 1000,
    archive := { unpackError := none,
                 entries := [{ name := "vscode-server-linux-x64", isDir := true }] } }

/-- C2: for a tag API returning one tag v2.3.0 at commit abc123 and a manifest
pinning vscode commit deadbeef, detect_version on a linux-x64 host returns ok
of a ServerInfo whose api version is v2.3.0, whose upstream commit is
deadbeef, and whose download URL ends in
/commit:deadbeef/server-linux-x64/stable. -/
theorem c2_detect_version_scenario (w : World) :
    ∃ info pre,
      (detect_version envT w).1 = .ok info ∧
      info.monaco_api_version = "v2.3.0" ∧
      info.vscode_commit = "deadbeef" ∧
      info.download_url = pre ++ "/commit:deadbeef/server-linux-x64/stable" :=
  ⟨_, "https://update.code.visualstudio.com", rfl, rfl, rfl, rfl⟩

/-- Decomposition of the argument list built in start: port and host first,
the telemetry flag exactly when configured, then exactly one of the two
connection-token flags, then the caller-supplied extra arguments. -/
theorem start_args_decomp (cfg : ServerConfig) :
    ∃ tok, start_args cfg =
      ["--port", toString cfg.port, "--host", cfg.host]
      ++ (if cfg.disable_telemetry then ["--disable-telemetry"] else [])
      ++ tok ++ cfg.args ∧
      ((∃ t, cfg.connection_token = some t ∧ tok = ["--connection-token", t]) ∨
       (cfg.connection_token = none ∧ tok = ["--without-connection-token"])) := by
  unfold start_args
  cases htok : cfg.connection_token with
  | none =>
    refine ⟨["--without-connection-token"], ?_, Or.inr ⟨rfl, rfl⟩⟩
    cases htele : cfg.disable_telemetry <;> simp
  | some t =>
    refine ⟨["--connection-token", t], ?_, Or.inl ⟨t, rfl, rfl⟩⟩
    cases htele : cfg.disable_telemetry <;> simp

/-- C5: whenever start spawns the child, the spawned argument list is exactly
port and host first, then the telemetry flag iff configured, then exactly one
of the connection-token flag with its token or the without-connection-token
flag, then the caller-supplied extra arguments in their given order. -/
theorem c5_start_argument_list (env : StartEnv) (m : VscodeServerManager) (w : World)
    (h : (VscodeServerManager.start env m w).1 = .ok ()) :
    ∃ exe tok,
      ((VscodeServerManager.start env m w).2.2).spawned =
        w.spawned ++ [(exe,
          ["--port", toString m.config.port, "--host", m.config.host]
          ++ (if m.config.disable_telemetry then ["--disable-telemetry"] else [])
          ++ tok ++ m.config.args)] ∧
      ((∃ t, m.config.connection_token = some t ∧ tok = ["--connection-token", t]) ∨
       (m.config.connection_token = none ∧ tok = ["--without-connection-token"])) := by
  obtain ⟨tok, hargs, htok⟩ := start_args_decomp m.config
  by_cases hp : m.process.isSome = true
  · simp [VscodeServerManager.start, hp] at h
  · rw [Bool.not_eq_true] at hp
    cases hsp : m.server_path with
    | none => simp [VscodeServerManager.start, hp, hsp] at h
    | some sp =>
      cases hexe : get_executable_path sp w with
      | error e => simp [VscodeServerManager.start, hp, hsp, hexe] at h
      | ok exe =>
        cases hspawn : env.spawnResult with
        | error e => simp [VscodeServerManager.start, hp, hsp, hexe, hspawn] at h
        | ok child =>
          refine ⟨exe, tok, ?_, htok⟩
          simp [VscodeServerManager.start, hp, hsp, hexe, hspawn, hargs]

/-- Witness instantiating c5_start_argument_list at a concrete ready manager. -/
theorem c5_witness :
    ∃ exe tok,
      ((VscodeServerManager.start { spawnResult := .ok childAlive }
          { config := cfgT, info := none, process := none,
            server_path := some ["cache", "deadbeef"] }
          { emptyWorld with
            files := [["cache", "deadbeef", "bin", "code-server"]] }).2.2).spawned =
        ({ emptyWorld with
            files := [["cache", "deadbeef", "bin", "code-server"]] } : World).spawned ++ [(exe,
          ["--port", toString cfgT.port, "--host", cfgT.host]
          ++ (if cfgT.disable_telemetry then ["--disable-telemetry"] else [])
          ++ tok ++ cfgT.args)] ∧
      ((∃ t, cfgT.connection_token = some t ∧ tok = ["--connection-token", t]) ∨
       (cfgT.connection_token = none ∧ tok = ["--without-connection-token"])) :=
  c5_start_argument_list _ _ _ (by decide)

/-- C6: start on a manager whose process slot is occupied returns the
AlreadyRunning error, spawns nothing, and leaves manager and world unchanged. -/
theorem c6_start_already_running (env : StartEnv) (m : VscodeServerManager) (w : World)
    (h : m.process.isSome = true) :
    VscodeServerManager.start env m w = (.error .AlreadyRunning, m, w) := by
  unfold VscodeServerManager.start
  simp [h]

/-- Witness instantiating c6_start_already_running at a concrete running manager. -/
theorem c6_witness :
    VscodeServerManager.start { spawnResult := .ok childAlive }
      { config := cfgT, info := none, process := some childAlive,
        server_path := some ["cache", "deadbeef"] } emptyWorld =
    (.error .AlreadyRunning,
     { config := cfgT, info := none, process := some childAlive,
       server_path := some ["cache", "deadbeef"] }, emptyWorld) :=
  c6_start_already_running _ _ _ (by decide)

/-- Taking the handle happens before kill and wait: whenever a handle is set,
stop leaves the slot empty, whatever kill and wait return. -/
theorem stop_snd_clears (m : VscodeServerManager) (c : Child) (h : m.process = some c) :
    (VscodeServerManager.stop m).2 = { m with process := none } := by
  unfold VscodeServerManager.stop
  rw [h]
  cases hk : c.killResult with
  | error e => simp [hk]
  | ok u =>
    cases hw : c.waitResult with
    | error e => simp [hk, hw]
    | ok v => simp [hk, hw]

/-- C7 counterexample: a manager holding a handle whose kill system call
fails.  Stop on it does not return ok, refuting the universal claim that stop
on a manager with a handle set returns ok. -/
theorem c7_counterexample :
    ({ config := cfgT, info := none,
       process := some { killResult := .error "No such process",
                         waitResult := .ok (), tryWaitResult := .ok none },
       server_path := none } : VscodeServerManager).process.isSome = true ∧
    (VscodeServerManager.stop
      { config := cfgT, info := none,
        process := some { killResult := .error "No such process",
                          waitResult := .ok (), tryWaitResult := .ok none },
        server_path := none }).1 ≠ .ok () := by
  exact ⟨rfl, by decide⟩

/-- C7 amended: stop on a manager with no handle returns the NotRunning error
and leaves no handle set; stop on a manager with a handle always clears the
slot, and returns ok exactly when the kill and wait operations both succeed. -/
theorem c7_stop_behavior (m : VscodeServerManager) :
    (m.process = none → VscodeServerManager.stop m = (.error .NotRunning, m)) ∧
    (∀ c, m.process = some c →
      (VscodeServerManager.stop m).2.process = none ∧
      (c.killResult = .ok () → c.waitResult = .ok () →
        VscodeServerManager.stop m = (.ok (), { m with process := none }))) := by
  constructor
  · intro h
    unfold VscodeServerManager.stop
    rw [h]
  · intro c hc
    refine ⟨by rw [stop_snd_clears m c hc], ?_⟩
    intro hk hw
    unfold VscodeServerManager.stop
    rw [hc]
    simp [hk, hw]

/-- Witness instantiating c7_stop_behavior in both branches: at a manager with
no handle and at a manager with a healthy handle. -/
theorem c7_witness :
    VscodeServerManager.stop
      { config := cfgT, info := none, process := none, server_path := none } =
      (.error .NotRunning,
       { config := cfgT, info := none, process := none, server_path := none }) ∧
    VscodeServerManager.stop
      { config := cfgT, info := none, process := some childAlive, server_path := none } =
      (.ok (),
       { config := cfgT, info := none, process := none, server_path := none }) :=
  ⟨(c7_stop_behavior _).1 rfl,
   ((c7_stop_behavior _).2 childAlive rfl).2 rfl rfl⟩

/-- C8: is_running on a handle whose child has already exited returns false
and clears the stale handle; on a handle whose child has not exited it
returns true; with no handle it returns false. -/
theorem c8_is_running (m : VscodeServerManager) :
    (∀ c, m.process = some c →
      ((∀ code, c.tryWaitResult = .ok (some code) →
         VscodeServerManager.is_running m = (false, { m with process := none })) ∧
       (c.tryWaitResult = .ok none → (VscodeServerManager.is_running m).1 = true))) ∧
    (m.process = none → (VscodeServerManager.is_running m).1 = false) := by
  constructor
  · intro c hc
    constructor
    · intro code hcode
      unfold VscodeServerManager.is_running
      rw [hc]
      simp [hcode]
    · intro hrun
      unfold VscodeServerManager.is_running
      rw [hc]
      simp [hrun]
  · intro h
    unfold VscodeServerManager.is_running
    rw [h]

/-- Witness instantiating c8_is_running at a manager holding an exited child. -/
theorem c8_witness :
    VscodeServerManager.is_running
      { config := cfgT, info := none,
        process := some { killResult := .ok (), waitResult := .ok (),
                          tryWaitResult := .ok (some 0) },
        server_path := none } =
    (false,
     { config := cfgT, info := none, process := none, server_path := none }) :=
  ((c8_is_running _).1 _ rfl).1 0 rfl

/-- The only error get_executable_path can return is ServerNotFound. -/
theorem get_executable_path_error (sp : List String) (w : World) (e : ServerError)
    (h : get_executable_path sp w = .error e) : e = .ServerNotFound := by
  unfold get_executable_path at h
  by_cases hp : pathExists (sp ++ ["bin", "code-server"]) w = true
  · simp [hp] at h
  · rw [Bool.not_eq_true] at hp
    simp [hp] at h
    exact h.symm

/-- C10: stop removes the handle from the slot before kill and wait, so after
any stop on a manager with a handle, the slot is empty, an immediately
following stop returns NotRunning, and an immediately following start is
never rejected with AlreadyRunning. -/
theorem c10_stop_clears_slot (m : VscodeServerManager) (c : Child)
    (h : m.process = some c) :
    (VscodeServerManager.stop m).2.process = none ∧
    (VscodeServerManager.stop (VscodeServerManager.stop m).2).1 = .error .NotRunning ∧
    (∀ env w,
      (VscodeServerManager.start env (VscodeServerManager.stop m).2 w).1 ≠
        .error .AlreadyRunning) := by
  have h2 := stop_snd_clears m c h
  refine ⟨by rw [h2], ?_, ?_⟩
  · rw [h2]
    unfold VscodeServerManager.stop
    rfl
  · intro env w
    rw [h2]
    cases hsp : m.server_path with
    | none => simp [VscodeServerManager.start, hsp]
    | some sp =>
      cases hexe : get_executable_path sp w with
      | error e =>
        have he := get_executable_path_error sp w e hexe
        simp [VscodeServerManager.start, hsp, hexe, he]
      | ok exe =>
        cases hspawn : env.spawnResult with
        | error e2 => simp [VscodeServerManager.start, hsp, hexe, hspawn]
        | ok child => simp [VscodeServerManager.start, hsp, hexe, hspawn]

/-- Witness instantiating c10_stop_clears_slot at a manager whose child fails
both kill and wait, so that stop itself returns an I/O error. -/
theorem c10_witness :
    (VscodeServerManager.stop
      { config := cfgT, info := none,
        process := some { killResult := .error "kill failed",
                          waitResult := .error "wait failed",
                          tryWaitResult := .ok none },
        server_path := none }).2.process = none ∧
    (VscodeServerManager.stop (VscodeServerManager.stop
      { config := cfgT, info := none,
        process := some { killResult := .error "kill failed",
                          waitResult := .error "wait failed",
                          tryWaitResult := .ok none },
        server_path := none }).2).1 = .error .NotRunning ∧
    (∀ env w,
      (VscodeServerManager.start env (VscodeServerManager.stop
        { config := cfgT, info := none,
          process := some { killResult := .error "kill failed",
                            waitResult := .error "wait failed",
                            tryWaitResult := .ok none },
          server_path := none }).2 w).1 ≠ .error .AlreadyRunning) :=
  c10_stop_clears_slot _ _ rfl

/-- The ServerInfo produced by detect_version in the scenario environment. -/
def infoT : ServerInfo :=
  { monaco_api_version := "v2.3.0", vscode_commit := "deadbeef",
    platform := .LinuxX64,
    download_url := "https://update.code.visualstudio.com/commit:deadbeef/server-linux-x64/stable" }

/-- C3: when the commit-keyed directory already exists under the target
directory, download_server returns ok immediately, performs no network
activity, and transfers zero bytes. -/
theorem c3_download_server_skips (env : NetEnv) (info : ServerInfo)
    (target_dir : List String) (w : World)
    (h : target_dir ++ [info.vscode_commit] ∈ w.dirs) :
    (download_server env info target_dir w).1 = .ok () ∧
    (download_server env info target_dir w).2.netCalls = w.netCalls ∧
    (download_server env info target_dir w).2.bytesTransferred = w.bytesTransferred := by
  have hex : pathExists (target_dir ++ [info.vscode_commit]) (addDir target_dir w) = true := by
    unfold pathExists addDir insertPath
    by_cases hmem : target_dir ∈ w.dirs <;> simp [hmem, h]
  unfold download_server
  simp only [hex]
  simp [addDir]

/-- Witness instantiating c3_download_server_skips at a world already holding
the deadbeef install directory. -/
theorem c3_witness :
    (download_server envT infoT ["cache"]
      { emptyWorld with dirs := [["cache", "deadbeef"]] }).1 = .ok () ∧
    (download_server envT infoT ["cache"]
      { emptyWorld with dirs := [["cache", "deadbeef"]] }).2.netCalls =
      ({ emptyWorld with dirs := [["cache", "deadbeef"]] } : World).netCalls ∧
    (download_server envT infoT ["cache"]
      { emptyWorld with dirs := [["cache", "deadbeef"]] }).2.bytesTransferred =
      ({ emptyWorld with dirs := [["cache", "deadbeef"]] } : World).bytesTransferred :=
  c3_download_server_skips _ _ _ _ (by decide)

/-- Appending the tmp extension changes a string. -/
theorem append_tmp_ne (s : String) : s ++ ".tmp" ≠ s := by
  intro h
  have hlen := congrArg String.length h
  rw [String.length_append] at hlen
  have h4 : String.length ".tmp" = 4 := rfl
  omega

/-- The temporary extraction directory is never a path prefix of the final
target directory it sits next to. -/
theorem withExtTmp_not_pref (p : List String) :
    List.isPrefixOf (withExtTmp p) p = false := by
  by_contra hb
  rw [Bool.not_eq_false] at hb
  have hpre : withExtTmp p <+: p := List.isPrefixOf_iff_prefix.mp hb
  cases p with
  | nil =>
    have hle := hpre.length_le
    simp [withExtTmp] at hle
  | cons a as =>
    have hlen : (withExtTmp (a :: as)).length = (a :: as).length := by
      simp [withExtTmp]
    have heq : withExtTmp (a :: as) = a :: as := hpre.eq_of_length hlen
    unfold withExtTmp at heq
    have hlast := congrArg (fun l => l.getLastD "") heq
    simp only [List.getLastD_concat] at hlast
    exact append_tmp_ne _ hlast

/-- Creating the directory p itself does not change what read_dir sees one
level below p. -/
theorem childDirs_insert_self (p : List String) (dirs0 : List (List String)) :
    childDirs p (insertPath p dirs0) = childDirs p dirs0 := by
  unfold insertPath
  by_cases hmem : p ∈ dirs0
  · simp [hmem]
  · have hpred : (p.length == p.length + 1 && List.isPrefixOf p p) = false := by
      have hne : (p.length == p.length + 1) = false := by
        rw [beq_eq_false_iff_ne]
        omega
      simp [hne]
    simp only [hmem, if_false]
    simp [childDirs, List.filter_cons, hpred]

/-- Reading the unpack directory back returns exactly the unpacked top-level
directories when the directory was empty beforehand. -/
theorem childDirs_unpack (p : List String) (entries : List TarEntry)
    (dirs0 : List (List String)) (hfresh : childDirs p dirs0 = []) :
    childDirs p ((entries.filter (fun e => e.isDir)).map (fun e => p ++ [e.name]) ++ dirs0)
      = (entries.filter (fun e => e.isDir)).map (fun e => p ++ [e.name]) := by
  unfold childDirs at hfresh ⊢
  rw [List.filter_append, hfresh, List.append_nil]
  apply List.filter_eq_self.mpr
  intro q hq
  obtain ⟨e, _he, rfl⟩ := List.mem_map.mp hq
  simp [List.isPrefixOf_iff_prefix]

/-- C4: extraction of a tar+gzip archive succeeds and places the result at
the target path if and only if the unpacked archive holds exactly one
top-level directory; with zero or more than one top-level directories it
fails with ExtractionFailed naming the count found.  The archive is assumed
well formed (unpack succeeds), with distinct entry names, and the temporary
extraction directory is assumed initially empty. -/
theorem c4_extract_tar_gz (ar : TarArchive) (target_dir : List String) (w : World)
    (hwf : ar.unpackError = none)
    (hfresh : childDirs (withExtTmp target_dir) w.dirs = [])
    (_hnodup : (ar.entries.map TarEntry.name).Nodup) :
    ((ar.entries.filter (fun e => e.isDir)).length = 1 →
      (extract_tar_gz ar target_dir w).1 = .ok () ∧
      target_dir ∈ (extract_tar_gz ar target_dir w).2.dirs) ∧
    ((ar.entries.filter (fun e => e.isDir)).length ≠ 1 →
      (extract_tar_gz ar target_dir w).1 = .error (.ExtractionFailed
        ("Expected exactly one directory in archive, found "
          ++ toString (ar.entries.filter (fun e => e.isDir)).length))) := by
  have hfound :
      childDirs (withExtTmp target_dir)
        (unpackInto (withExtTmp target_dir) ar.entries (addDir (withExtTmp target_dir) w)).dirs
      = (ar.entries.filter (fun e => e.isDir)).map
          (fun e => withExtTmp target_dir ++ [e.name]) := by
    unfold unpackInto addDir
    refine (childDirs_unpack _ _ _ ?_)
    rw [childDirs_insert_self, hfresh]
  have hflen :
      (childDirs (withExtTmp target_dir)
        (unpackInto (withExtTmp target_dir) ar.entries (addDir (withExtTmp target_dir) w)).dirs).length
      = (ar.entries.filter (fun e => e.isDir)).length := by
    rw [hfound, List.length_map]
  constructor
  · intro h1
    have hcond :
        ¬ ((childDirs (withExtTmp target_dir)
          (unpackInto (withExtTmp target_dir) ar.entries
            (addDir (withExtTmp target_dir) w)).dirs).length ≠ 1) := by
      rw [hflen]
      omega
    constructor
    · simp [extract_tar_gz, hwf, hcond]
    · simp only [extract_tar_gz, hwf, hcond, if_false]
      simp [renamePath, removeTree, List.mem_filter, withExtTmp_not_pref]
  · intro h1
    have hcond :
        (childDirs (withExtTmp target_dir)
          (unpackInto (withExtTmp target_dir) ar.entries
            (addDir (withExtTmp target_dir) w)).dirs).length ≠ 1 := by
      rw [hflen]
      exact h1
    simp [extract_tar_gz, hwf, hcond, hflen]
    rw [if_neg h1]

/-- Archive with exactly one top-level directory. -/
def arOne : TarArchive :=
  { unpackError := none,
    entries := [{ name := "vscode-server-linux-x64", isDir := true },
                { name := "README", isDir := false }] }

/-- Archive with no top-level directory at all. -/
def arZero : TarArchive :=
  { unpackError := none, entries := [{ name := "stray-file", isDir := false }] }

/-- Witness instantiating c4_extract_tar_gz both at a one-directory archive
and at a zero-directory archive. -/
theorem c4_witness :
    ((extract_tar_gz arOne ["cache", "deadbeef"] emptyWorld).1 = .ok () ∧
      ["cache", "deadbeef"] ∈ (extract_tar_gz arOne ["cache", "deadbeef"] emptyWorld).2.dirs) ∧
    (extract_tar_gz arZero ["cache", "deadbeef"] emptyWorld).1 = .error (.ExtractionFailed
      ("Expected exactly one directory in archive, found "
        ++ toString (arZero.entries.filter (fun e => e.isDir)).length)) :=
  ⟨(c4_extract_tar_gz arOne ["cache", "deadbeef"] emptyWorld rfl rfl (by decide)).1 (by decide),
   (c4_extract_tar_gz arZero ["cache", "deadbeef"] emptyWorld rfl rfl (by decide)).2 (by decide)⟩

/-- The outcome of detect_version depends only on the environment, never on
the world it is run in. -/
theorem detect_fst_indep (env : NetEnv) (w w2 : World) :
    (detect_version env w).1 = (detect_version env w2).1 := by
  unfold detect_version
  cases ht : env.tagsResp with
  | error e => simp [ht]
  | ok tags =>
    cases hh : tags.head? with
    | none => simp [ht, hh]
    | some t =>
      cases hp : env.pkgResp with
      | error e => simp [ht, hh, hp]
      | ok pkg =>
        cases hpl : env.platformResult with
        | error s => simp [ht, hh, hp, hpl]
        | ok p => simp [ht, hh, hp, hpl]

/-- detect_version touches no files and transfers no bytes: it only issues
network requests. -/
theorem detect_preserves (env : NetEnv) (w : World) :
    (detect_version env w).2.dirs = w.dirs ∧
    (detect_version env w).2.files = w.files ∧
    (detect_version env w).2.bytesTransferred = w.bytesTransferred ∧
    (detect_version env w).2.spawned = w.spawned := by
  unfold detect_version
  cases ht : env.tagsResp with
  | error e => simp [ht]
  | ok tags =>
    cases hh : tags.head? with
    | none => simp [ht, hh]
    | some t =>
      cases hp : env.pkgResp with
      | error e => simp [ht, hh, hp]
      | ok pkg =>
        cases hpl : env.platformResult with
        | error s => simp [ht, hh, hp, hpl]
        | ok p => simp [ht, hh, hp, hpl]

/-- A successful detect_version performs exactly two network round trips. -/
theorem detect_ok_netCalls (env : NetEnv) (w : World) (info : ServerInfo)
    (h : (detect_version env w).1 = .ok info) :
    (detect_version env w).2.netCalls = w.netCalls + 2 := by
  unfold detect_version at h ⊢
  cases ht : env.tagsResp with
  | error e => simp [ht] at h
  | ok tags =>
    cases hh : tags.head? with
    | none => simp [ht, hh] at h
    | some t =>
      cases hp : env.pkgResp with
      | error e => simp [ht, hh, hp] at h
      | ok pkg =>
        cases hpl : env.platformResult with
        | error s => simp [ht, hh, hp, hpl] at h
        | ok p => simp [ht, hh, hp, hpl]

/-- A successful tar extraction leaves the target directory on disk. -/
theorem extract_tar_gz_ok_mem (ar : TarArchive) (target_dir : List String) (w : World)
    (h : (extract_tar_gz ar target_dir w).1 = .ok ()) :
    target_dir ∈ (extract_tar_gz ar target_dir w).2.dirs := by
  unfold extract_tar_gz at h ⊢
  cases hwf : ar.unpackError with
  | some e => simp [hwf] at h
  | none =>
    by_cases hlen :
        (childDirs (withExtTmp target_dir)
          (unpackInto (withExtTmp target_dir) ar.entries
            (addDir (withExtTmp target_dir) w)).dirs).length = 1
    · have hcond : ¬ ((childDirs (withExtTmp target_dir)
          (unpackInto (withExtTmp target_dir) ar.entries
            (addDir (withExtTmp target_dir) w)).dirs).length ≠ 1) := by
        omega
      simp only [hwf, hcond, if_false]
      simp [renamePath, removeTree, List.mem_filter, withExtTmp_not_pref]
    · simp [hwf, hlen] at h

/-- A successful archive extraction leaves the target directory on disk. -/
theorem extract_archive_ok_mem (ar : TarArchive) (target_dir : List String)
    (pl : Platform) (w : World)
    (h : (extract_archive ar target_dir pl w).1 = .ok ()) :
    target_dir ∈ (extract_archive ar target_dir pl w).2.dirs := by
  unfold extract_archive at h ⊢
  by_cases hz : pl.uses_zip = true
  · simp [hz, extract_zip] at h
  · rw [Bool.not_eq_true] at hz
    simp only [hz, Bool.false_eq_true, if_false] at h ⊢
    exact extract_tar_gz_ok_mem ar target_dir w h

/-- A successful download_server leaves the commit-keyed directory present. -/
theorem download_ok_exists (env : NetEnv) (info : ServerInfo)
    (target_dir : List String) (w : World)
    (h : (download_server env info target_dir w).1 = .ok ()) :
    pathExists (target_dir ++ [info.vscode_commit])
      (download_server env info target_dir w).2 = true := by
  unfold download_server at h ⊢
  by_cases hex : pathExists (target_dir ++ [info.vscode_commit]) (addDir target_dir w) = true
  · simp [hex]
  · rw [Bool.not_eq_true] at hex
    by_cases hst : statusIsSuccess env.statusCode = true
    · simp only [hex, hst, Bool.false_eq_true, if_false, Bool.not_true,
        Bool.true_eq_false] at h ⊢
      cases hx : (extract_archive env.archive (target_dir ++ [info.vscode_commit])
          info.platform
          { dirs := (addDir target_dir w).dirs,
            files := insertPath
              (target_dir ++
                [if info.platform.uses_zip = true then
                    "vscode-server-" ++ info.vscode_commit ++ ".zip"
                  else "vscode-server-" ++ info.vscode_commit ++ ".tar.gz"])
              (addDir target_dir w).files,
            netCalls := (addDir target_dir w).netCalls + 1,
            bytesTransferred := (addDir target_dir w).bytesTransferred + env.archiveLen,
            spawned := (addDir target_dir w).spawned }).1 with
      | error e => simp [hx] at h
      | ok u =>
        cases u
        simp only [hx]
        have hmem := extract_archive_ok_mem _ _ _ _ hx
        simp [pathExists, removeFile]
        exact Or.inl hmem
    · rw [Bool.not_eq_true] at hst
      simp [hex, hst] at h

/-- ensure_server never changes the configuration of the manager. -/
theorem ensure_config (env : NetEnv) (m : VscodeServerManager) (w : World) :
    ((VscodeServerManager.ensure_server env m w).2.1).config = m.config := by
  unfold VscodeServerManager.ensure_server
  cases hd : (detect_version env w).1 with
  | error e => simp [hd]
  | ok info =>
    by_cases hex : pathExists (m.config.server_dir ++ [info.vscode_commit])
        (detect_version env w).2 = true
    · simp [hd, hex]
    · rw [Bool.not_eq_true] at hex
      cases hdl : (download_server env info m.config.server_dir (detect_version env w).2).1 with
      | error e => simp [hd, hex, hdl]
      | ok u => simp [hd, hex, hdl]

/-- After a successful ensure_server, the commit-keyed directory of the
detected version exists in the resulting world. -/
theorem ensure_ok_exists (env : NetEnv) (m : VscodeServerManager) (w : World)
    (info : ServerInfo) (hd : (detect_version env w).1 = .ok info)
    (h : (VscodeServerManager.ensure_server env m w).1 = .ok ()) :
    pathExists (m.config.server_dir ++ [info.vscode_commit])
      (VscodeServerManager.ensure_server env m w).2.2 = true := by
  unfold VscodeServerManager.ensure_server at h ⊢
  by_cases hex : pathExists (m.config.server_dir ++ [info.vscode_commit])
      (detect_version env w).2 = true
  · simp [hd, hex]
  · rw [Bool.not_eq_true] at hex
    cases hdl : (download_server env info m.config.server_dir (detect_version env w).2).1 with
    | error e => simp [hd, hex, hdl] at h
    | ok u =>
      cases u
      simp only [hd, hex, Bool.false_eq_true, if_false, hdl]
      exact download_ok_exists env info m.config.server_dir (detect_version env w).2 hdl

/-- C1 amended: after one successful ensure_server, an immediately following
ensure_server succeeds, performs exactly the two version-detection network
round trips and nothing else: no download request beyond those two calls, no
bytes transferred, and no change to the filesystem. -/
theorem c1_ensure_server_second_call (env : NetEnv) (m : VscodeServerManager) (w : World)
    (h : (VscodeServerManager.ensure_server env m w).1 = .ok ()) :
    (VscodeServerManager.ensure_server env
      (VscodeServerManager.ensure_server env m w).2.1
      (VscodeServerManager.ensure_server env m w).2.2).1 = .ok () ∧
    (VscodeServerManager.ensure_server env
      (VscodeServerManager.ensure_server env m w).2.1
      (VscodeServerManager.ensure_server env m w).2.2).2.2.netCalls =
      (VscodeServerManager.ensure_server env m w).2.2.netCalls + 2 ∧
    (VscodeServerManager.ensure_server env
      (VscodeServerManager.ensure_server env m w).2.1
      (VscodeServerManager.ensure_server env m w).2.2).2.2.bytesTransferred =
      (VscodeServerManager.ensure_server env m w).2.2.bytesTransferred ∧
    (VscodeServerManager.ensure_server env
      (VscodeServerManager.ensure_server env m w).2.1
      (VscodeServerManager.ensure_server env m w).2.2).2.2.dirs =
      (VscodeServerManager.ensure_server env m w).2.2.dirs ∧
    (VscodeServerManager.ensure_server env
      (VscodeServerManager.ensure_server env m w).2.1
      (VscodeServerManager.ensure_server env m w).2.2).2.2.files =
      (VscodeServerManager.ensure_server env m w).2.2.files := by
  cases hd : (detect_version env w).1 with
  | error e =>
    unfold VscodeServerManager.ensure_server at h
    simp [hd] at h
  | ok info =>
    have hcfg := ensure_config env m w
    have hpath := ensure_ok_exists env m w info hd h
    rcases hE : VscodeServerManager.ensure_server env m w with ⟨r1, m1, w1⟩
    rw [hE] at hcfg hpath
    dsimp only at hcfg hpath ⊢
    have hd2 : (detect_version env w1).1 = .ok info := by
      rw [detect_fst_indep env w1 w, hd]
    have hpres := detect_preserves env w1
    have hnet := detect_ok_netCalls env w1 info hd2
    have hex2 : pathExists (m1.config.server_dir ++ [info.vscode_commit])
        (detect_version env w1).2 = true := by
      rw [hcfg]
      unfold pathExists at hpath ⊢
      rw [hpres.1, hpres.2.1]
      exact hpath
    unfold VscodeServerManager.ensure_server
    simp only [hd2]
    rw [if_pos hex2]
    exact ⟨rfl, hnet, hpres.2.2.1, hpres.1, hpres.2.1⟩

/-- The fresh manager of the scenario: default-like configuration, nothing
cached, nothing running. -/
def mT : VscodeServerManager :=
  { config := cfgT, info := none, process := none, server_path := none }

/-- C1 counterexample: in the concrete scenario the first ensure_server
succeeds and installs the commit directory, the directory is still present,
yet the second ensure_server performs two network calls, not zero. -/
theorem c1_counterexample :
    (VscodeServerManager.ensure_server envT mT emptyWorld).1 = .ok () ∧
    ["cache", "deadbeef"] ∈ (VscodeServerManager.ensure_server envT mT emptyWorld).2.2.dirs ∧
    (VscodeServerManager.ensure_server envT mT emptyWorld).2.2.netCalls = 3 ∧
    (VscodeServerManager.ensure_server envT
      (VscodeServerManager.ensure_server envT mT emptyWorld).2.1
      (VscodeServerManager.ensure_server envT mT emptyWorld).2.2).2.2.netCalls = 5 := by
  refine ⟨rfl, by decide, rfl, rfl⟩

/-- Witness instantiating c1_ensure_server_second_call at the concrete
scenario. -/
theorem c1_witness :
    (VscodeServerManager.ensure_server envT
      (VscodeServerManager.ensure_server envT mT emptyWorld).2.1
      (VscodeServerManager.ensure_server envT mT emptyWorld).2.2).1 = .ok () ∧
    (VscodeServerManager.ensure_server envT
      (VscodeServerManager.ensure_server envT mT emptyWorld).2.1
      (VscodeServerManager.ensure_server envT mT emptyWorld).2.2).2.2.netCalls =
      (VscodeServerManager.ensure_server envT mT emptyWorld).2.2.netCalls + 2 ∧
    (VscodeServerManager.ensure_server envT
      (VscodeServerManager.ensure_server envT mT emptyWorld).2.1
      (VscodeServerManager.ensure_server envT mT emptyWorld).2.2).2.2.bytesTransferred =
      (VscodeServerManager.ensure_server envT mT emptyWorld).2.2.bytesTransferred ∧
    (VscodeServerManager.ensure_server envT
      (VscodeServerManager.ensure_server envT mT emptyWorld).2.1
      (VscodeServerManager.ensure_server envT mT emptyWorld).2.2).2.2.dirs =
      (VscodeServerManager.ensure_server envT mT emptyWorld).2.2.dirs ∧
    (VscodeServerManager.ensure_server envT
      (VscodeServerManager.ensure_server envT mT emptyWorld).2.1
      (VscodeServerManager.ensure_server envT mT emptyWorld).2.2).2.2.files =
      (VscodeServerManager.ensure_server envT mT emptyWorld).2.2.files :=
  c1_ensure_server_second_call envT mT emptyWorld rfl

/-- C9 amended: when version detection succeeds but ensure_server then fails,
the cached ServerInfo has been updated to the newly detected info while the
resolved install path is left exactly as it was before the call. -/
theorem c9_ensure_mutates_info (env : NetEnv) (m : VscodeServerManager) (w : World)
    (info : ServerInfo) (e : ServerError)
    (hd : (detect_version env w).1 = .ok info)
    (he : (VscodeServerManager.ensure_server env m w).1 = .error e) :
    (VscodeServerManager.ensure_server env m w).2.1.info = some info ∧
    (VscodeServerManager.ensure_server env m w).2.1.server_path = m.server_path := by
  unfold VscodeServerManager.ensure_server at he ⊢
  by_cases hex : pathExists (m.config.server_dir ++ [info.vscode_commit])
      (detect_version env w).2 = true
  · simp [hd, hex] at he
  · rw [Bool.not_eq_true] at hex
    cases hdl : (download_server env info m.config.server_dir (detect_version env w).2).1 with
    | error e2 => simp [hd, hex, hdl]
    | ok u =>
      cases u
      simp [hd, hex, hdl] at he

/-- Network environment in which detection succeeds but the archive download
is answered with HTTP status 404. -/
def envFail : NetEnv := { envT with statusCode := 404 }

/-- A manager that carries an install path resolved by some earlier
successful run. -/
def mOld : VscodeServerManager :=
  { config := cfgT, info := none, process := none, server_path := some ["old"] }

/-- C9 counterexample: version detection succeeds, the download fails, the
cached info is updated, and the resolved install path is not unset: it still
holds its previous value. -/
theorem c9_counterexample :
    (VscodeServerManager.ensure_server envFail mOld emptyWorld).1 =
      .error (.DownloadFailed "Failed to download: 404") ∧
    (VscodeServerManager.ensure_server envFail mOld emptyWorld).2.1.info = some infoT ∧
    (VscodeServerManager.ensure_server envFail mOld emptyWorld).2.1.server_path =
      some ["old"] := by
  refine ⟨rfl, rfl, rfl⟩

/-- Witness instantiating c9_ensure_mutates_info at the failing-download
scenario. -/
theorem c9_witness :
    (VscodeServerManager.ensure_server envFail mOld emptyWorld).2.1.info = some infoT ∧
    (VscodeServerManager.ensure_server envFail mOld emptyWorld).2.1.server_path =
      mOld.server_path :=
  c9_ensure_mutates_info envFail mOld emptyWorld infoT
    (.DownloadFailed "Failed to download: 404") rfl rfl

end MonacoVscodeServer
